import Mathlib

/-!
Verification of the price-scanning job-orchestration core.

This file gives a shallow embedding, in Lean 4, of the orchestration core of
the repository: the in-memory job store (src/server/services/job-storage
service), the retry-with-backoff executor (src/server/utils/retry), the
scraping orchestrator startScraping together with its per-pair worker
scrapeProduct (src/server/services/scraper.service, Playwright variant), and
the scrape controller guards (src/server/controllers/scrape.controller).

Modelling conventions:
- JavaScript numbers used as counters are Nat; the configurable maxRetries is
  Int because the source never guards it against non-positive values.
- A thrown JavaScript value is Except.error; the thrown payload is an
  Option String, where some m is an Error whose .message is m and none is a
  non-Error value (in particular the undefined thrown by the retry executor
  when its loop body never ran).
- The percent field of a progress event is Option Nat: some p is the integer
  p produced by Math.round, none is the NaN produced by Math.round((0/0)*100)
  when totalTasks is zero.  For completed <= total, total > 0, Math.round of
  100*completed/total equals (200*completed + total) / (2*total) in natural
  division.
- External effects (Playwright navigation, the random placeholder price) are
  an environment: nav storeIdx productIdx attempt is the outcome of the
  attempt-th invocation of scrapeProduct for that (store, product) pair,
  either a thrown error message or the price the placeholder result carries.
- Pacing sleeps and log lines have no observable effect on the claims and are
  not recorded; the retry executor does record its sleep durations, since the
  backoff update lives there.
-/

/-- Status values of a job, from the JobStatus enum in types/index. -/
inductive JobStatus where
  | uploaded
  | processing
  | completed
  | failed
deriving DecidableEq, Repr

/-- A store row, from the StoreData interface. -/
structure StoreData where
  storeName : String
  websiteUrl : String
deriving DecidableEq, Repr

/-- A product row, from the ProductData interface. -/
structure ProductData where
  productId : String
  productName : String
  description : String
  brand : String
deriving DecidableEq, Repr

/-- One per-(store, product) outcome, from the ScrapingResult interface.
The brand field is present because both constructors in the source attach it
to the literal they push, although the declared interface omits it. -/
structure ScrapingResult where
  productId : String
  productName : String
  brand : String
  storeName : String
  foundProductName : Option String
  price : Option ℚ
  currency : Option String
  availability : Option String
  isExactMatch : Bool
  replacementDescription : Option String
  errorMessage : Option String
deriving DecidableEq, Repr

/-- A job record, from the JobData interface.  The error field is the dynamic
property the source assigns in updateJobStatus. -/
structure JobData where
  jobId : String
  stores : List StoreData
  products : List ProductData
  status : JobStatus
  createdAt : ℕ
  results : Option (List ScrapingResult)
  error : Option String
deriving DecidableEq, Repr

/-- The in-memory job map, as an association list in insertion order. -/
abbrev JobStore : Type := List (String × JobData)

/-- Lookup in the job map; models jobs.get(jobId). -/
def getJob : JobStore → String → Option JobData
  | [], _ => none
  | kv :: rest, id => if kv.1 = id then some kv.2 else getJob rest id

/-- Models jobs.set(key, value): replace the record at an existing key in
place, otherwise append a new entry. -/
def jobsSet : JobStore → String → JobData → JobStore
  | [], id, j => [(id, j)]
  | kv :: rest, id, j =>
      if kv.1 = id then (id, j) :: rest else kv :: jobsSet rest id j

/-- Models saveJob: an unconditional jobs.set keyed by jobData.jobId. -/
def saveJob (st : JobStore) (jobData : JobData) : JobStore :=
  jobsSet st jobData.jobId jobData

/-- Models updateJobStatus: if the job exists, set its status, and set its
error only when the error argument is truthy (present and non-empty); a
missing job is a logged no-op. -/
def updateJobStatus (st : JobStore) (jobId : String) (status : JobStatus)
    (error : Option String) : JobStore :=
  match getJob st jobId with
  | none => st
  | some job =>
      jobsSet st jobId
        { job with
          status := status
          error :=
            match error with
            | some e => if e = "" then job.error else some e
            | none => job.error }

/-- Models the assignment job.results = results performed by the orchestrator
on the live record just before it marks the job completed. -/
def setResults (st : JobStore) (jobId : String)
    (rs : List ScrapingResult) : JobStore :=
  match getJob st jobId with
  | none => st
  | some job => jobsSet st jobId { job with results := some rs }

/-- Models the resultsCount field of the getJobStatus response:
job.results?.length with 0 for a missing list. -/
def resultsCount (job : JobData) : ℕ :=
  match job.results with
  | none => 0
  | some rs => rs.length

/-- Options of the retry executor, from the RetryOptions interface.
maxRetries is Int because the source never rules out non-positive values. -/
structure RetryOptions where
  maxRetries : ℤ
  delayMs : ℕ
  backoffMultiplier : ℕ
  maxDelayMs : ℕ
deriving DecidableEq, Repr

/-- Observable trace of one call to the retry executor: the value returned or
the value thrown (none being the undefined thrown when the attempt loop never
ran), how many times the wrapped operation was invoked, the (error, attempt)
arguments of each onRetry invocation in order, and the sleep durations. -/
structure RetryTrace (ε α : Type) where
  outcome : Except (Option ε) α
  calls : ℕ
  onRetryCalls : List (ε × ℕ)
  sleeps : List ℕ
deriving Repr

/-- Attempt loop of the retry executor.  The operation is indexed by the
attempt counter, which starts at 1; remaining is how many attempts are still
allowed, so remaining = 1 means this is attempt maxRetries and a failure is
rethrown instead of retried. -/
def retryGo (fn : ℕ → Except ε α) (mult maxD : ℕ) :
    ℕ → ℕ → ℕ → RetryTrace ε α
  | 0, _, _ => ⟨Except.error none, 0, [], []⟩
  | 1, attempt, _ =>
      match fn attempt with
      | Except.ok a => ⟨Except.ok a, 1, [], []⟩
      | Except.error e => ⟨Except.error (some e), 1, [], []⟩
  | n + 2, attempt, curDelay =>
      match fn attempt with
      | Except.ok a => ⟨Except.ok a, 1, [], []⟩
      | Except.error e =>
          let next := min (curDelay * mult) maxD
          let r := retryGo fn mult maxD (n + 1) (attempt + 1) next
          ⟨r.outcome, r.calls + 1, (e, attempt) :: r.onRetryCalls,
            curDelay :: r.sleeps⟩

/-- Models the retry function: run the attempt loop for attempt = 1 ..
maxRetries; when maxRetries is not positive the loop body never executes and
the unassigned lastError variable, i.e. undefined, is thrown. -/
def retry (fn : ℕ → Except ε α) (opts : RetryOptions) : RetryTrace ε α :=
  if opts.maxRetries ≤ 0 then ⟨Except.error none, 0, [], []⟩
  else retryGo fn opts.backoffMultiplier opts.maxDelayMs
    opts.maxRetries.toNat 1 opts.delayMs

/-- Math.round of 100 * completed / totalTasks as the orchestrator computes
its percent: NaN (none) when totalTasks = 0, otherwise round-half-up, which
for the non-negative rational involved is floor of (100*c/t + 1/2). -/
def roundPct (completed total : ℕ) : Option ℕ :=
  if total = 0 then none
  else some ((200 * completed + total) / (2 * total))

/-- One progress event as emitted over the job progress channel. -/
structure ProgressEvent where
  status : String
  progress : Option ℕ
  message : String
  currentStore : Option String
  currentProduct : Option String
  results : Option (List ScrapingResult)
  error : Option String
deriving DecidableEq, Repr

/-- The event emitted right after the job enters PROCESSING. -/
def initEvent : ProgressEvent :=
  { status := "processing", progress := some 0
    message := "Initializing browser...", currentStore := none
    currentProduct := none, results := none, error := none }

/-- The event emitted at the top of each store iteration. -/
def storeEvent (store : StoreData) (total completed : ℕ) : ProgressEvent :=
  { status := "processing", progress := roundPct completed total
    message := "Scraping " ++ store.storeName ++ "..."
    currentStore := some store.storeName
    currentProduct := none, results := none, error := none }

/-- The event emitted after each task, successful or recorded as failed. -/
def taskEvent (store : StoreData) (product : ProductData)
    (total completed : ℕ) : ProgressEvent :=
  { status := "processing", progress := roundPct completed total
    message := "Scraped " ++ product.productName ++ " from " ++ store.storeName
    currentStore := some store.storeName
    currentProduct := some product.productName
    results := none, error := none }

/-- The terminal event of a successful run. -/
def completedEvent (rs : List ScrapingResult) (totalStores : ℕ) :
    ProgressEvent :=
  { status := "completed", progress := some 100
    message := "Completed! Scraped " ++ toString rs.length ++
      " products from " ++ toString totalStores ++ " stores."
    currentStore := none, currentProduct := none
    results := some rs, error := none }

/-- The terminal event of a failed run; its progress field is the literal 0
the source emits. -/
def failedEvent (msg : String) : ProgressEvent :=
  { status := "failed", progress := some 0
    message := "Job failed: " ++ msg
    currentStore := none, currentProduct := none
    results := none, error := some msg }

/-- Environment of one orchestrator run: whether browser launch plus context
creation succeeds, the outcome of each invocation of scrapeProduct (indexed
by store index, product index and attempt counter: a thrown error message or
the random price the placeholder result carries), and the configured
config.scraping.maxRetries. -/
structure ScrapeEnv where
  launch : Except String Unit
  nav : ℕ → ℕ → ℕ → Except String ℚ
  maxRetries : ℤ

/-- The retry options the orchestrator passes: configured maxRetries, a 2000
ms delay, and the executor defaults for the remaining fields. -/
def scrapeRetryOptions (maxRetries : ℤ) : RetryOptions :=
  ⟨maxRetries, 2000, 2, 30000⟩

/-- Message of a thrown value, as the source computes it:
error instanceof Error ? error.message : the literal Unknown error. -/
def errMsgOf : Option String → String
  | some m => m
  | none => "Unknown error"

/-- Models scrapeProduct: create a page and navigate (the fallible part,
given by the environment), then return the placeholder result whose identity
fields echo the pair and whose price is the random value. -/
def scrapeProduct (env : ScrapeEnv) (store : StoreData) (product : ProductData)
    (s p attempt : ℕ) : Except String ScrapingResult :=
  match env.nav s p attempt with
  | Except.error e => Except.error e
  | Except.ok q =>
      Except.ok
        { productId := product.productId
          productName := product.productName
          brand := product.brand
          storeName := store.storeName
          foundProductName := some (product.productName ++ " (placeholder)")
          price := some q
          currency := some "NZD"
          availability := some "In Stock"
          isExactMatch := false
          replacementDescription :=
            some "This is a placeholder result. AI integration coming in Phase 5."
          errorMessage := none }

/-- The synthesized failure entry the orchestrator pushes when the retry
executor exhausts its attempts for one pair. -/
def errorResult (store : StoreData) (product : ProductData)
    (thrown : Option String) : ScrapingResult :=
  { productId := product.productId
    productName := product.productName
    brand := product.brand
    storeName := store.storeName
    foundProductName := none, price := none, currency := none
    availability := none, isExactMatch := false
    replacementDescription := none
    errorMessage := some (errMsgOf thrown) }

/-- One (store, product) task: scrapeProduct driven through the retry
executor; an exhausted retry is caught and converted into the synthesized
failure entry. -/
def runTask (env : ScrapeEnv) (store : StoreData) (product : ProductData)
    (s p : ℕ) : ScrapingResult :=
  match (retry (fun attempt => scrapeProduct env store product s p attempt)
      (scrapeRetryOptions env.maxRetries)).outcome with
  | Except.ok r => r
  | Except.error e => errorResult store product e

/-- Inner product loop of startScraping for one store: returns the results
pushed, the progress events emitted, and the completed-task counter. -/
def runProducts (env : ScrapeEnv) (total : ℕ) (store : StoreData) (sIdx : ℕ) :
    List ProductData → ℕ → ℕ →
    List ScrapingResult × List ProgressEvent × ℕ
  | [], _, completed => ([], [], completed)
  | product :: rest, pIdx, completed =>
      let r := runTask env store product sIdx pIdx
      let c := completed + 1
      let ev := taskEvent store product total c
      let (rs, evs, cEnd) := runProducts env total store sIdx rest (pIdx + 1) c
      (r :: rs, ev :: evs, cEnd)

/-- Outer store loop of startScraping: a store-start event, then the product
loop, for each store in order. -/
def runStores (env : ScrapeEnv) (products : List ProductData) (total : ℕ) :
    List StoreData → ℕ → ℕ →
    List ScrapingResult × List ProgressEvent × ℕ
  | [], _, completed => ([], [], completed)
  | store :: rest, sIdx, completed =>
      let evS := storeEvent store total completed
      let (rs, evs, c) := runProducts env total store sIdx products 0 completed
      let (rs2, evs2, c2) := runStores env products total rest (sIdx + 1) c
      (rs ++ rs2, evS :: (evs ++ evs2), c2)

/-- Observable outcome of one startScraping run: the job store afterwards,
the progress events emitted in order, and normal return versus the thrown
error message. -/
structure RunOutcome where
  store : JobStore
  events : List ProgressEvent
  result : Except String Unit

/-- Models startScraping: look the job up (throwing if missing), move it to
PROCESSING, emit the initial event, then either fail at browser launch -
recording FAILED, emitting the failure event and rethrowing - or run the full
task matrix, attach the results to the record, mark it COMPLETED and emit the
terminal event.  Per-task failures never reach the catch block: they are
absorbed by runTask. -/
def startScraping (st : JobStore) (jobId : String) (env : ScrapeEnv) :
    RunOutcome :=
  match getJob st jobId with
  | none => ⟨st, [], Except.error ("Job " ++ jobId ++ " not found")⟩
  | some job =>
      let st1 := updateJobStatus st jobId JobStatus.processing none
      match env.launch with
      | Except.error e =>
          let st2 := updateJobStatus st1 jobId JobStatus.failed (some e)
          ⟨st2, [initEvent, failedEvent e], Except.error e⟩
      | Except.ok _ =>
          let total := job.stores.length * job.products.length
          let (results, events, _) :=
            runStores env job.products total job.stores 0 0
          let st2 := setResults st1 jobId results
          let st3 := updateJobStatus st2 jobId JobStatus.completed none
          ⟨st3, initEvent :: events ++
              [completedEvent results job.stores.length], Except.ok ()⟩

/-- Errors of the HTTP boundary, as AppError(status, message). -/
inductive AppError where
  | badRequest (msg : String)
  | notFound (msg : String)
deriving DecidableEq, Repr

/-- Observable outcome of one scrapeController call: the HTTP-level response
(ok is the 202 accepted), the job store afterwards, the events emitted by the
triggered run, and the error the detached run rethrew, if any (the controller
only logs it). -/
structure CtrlOutcome where
  response : Except AppError Unit
  store : JobStore
  events : List ProgressEvent
  runError : Option String
deriving Repr

/-- Models scrapeController: require a jobId, require the job to exist,
reject a PROCESSING or COMPLETED job with a 400, and otherwise trigger
startScraping (the run is detached in the source; its effects are composed
here sequentially, which is faithful because a single run is in flight). -/
def scrapeController (st : JobStore) (jobId : Option String)
    (env : ScrapeEnv) : CtrlOutcome :=
  match jobId with
  | none => ⟨Except.error (AppError.badRequest "jobId is required"), st, [], none⟩
  | some jid =>
      match getJob st jid with
      | none =>
          ⟨Except.error (AppError.notFound ("Job " ++ jid ++ " not found")),
            st, [], none⟩
      | some job =>
          if job.status = JobStatus.processing then
            ⟨Except.error (AppError.badRequest
                ("Job " ++ jid ++ " is already being processed")), st, [], none⟩
          else if job.status = JobStatus.completed then
            ⟨Except.error (AppError.badRequest
                ("Job " ++ jid ++ " has already been completed")), st, [], none⟩
          else
            let out := startScraping st jid env
            ⟨Except.ok (), out.store, out.events,
              match out.result with
              | Except.ok _ => none
              | Except.error e => some e⟩

/-- The (storeName, productId) identity pair of a result entry. -/
def idPair (r : ScrapingResult) : String × String :=
  (r.storeName, r.productId)

/-- The defined percent values of an event stream, in emission order; NaN
percents are skipped. -/
def percentsOf (evs : List ProgressEvent) : List ℕ :=
  evs.filterMap (fun e => e.progress)

/-- The defined percent value for completed of total tasks, total positive:
the Nat form of Math.round(100 * completed / total). -/
def pctN (completed total : ℕ) : ℕ :=
  (200 * completed + total) / (2 * total)

/-- Completed-task counts at which the store loop emits events, in order: for
each store, the count at its store-start event followed by the counts after
each of its P tasks, starting from count c.  Used to characterize the percent
sequence of a run. -/
def runCounts (P : ℕ) : ℕ → ℕ → List ℕ
  | 0, _ => []
  | S + 1, c =>
      (c :: (List.range P).map (fun j => c + j + 1)) ++ runCounts P S (c + P)

/-- Fixture: a store row with the given name. -/
def mkStore (name : String) : StoreData :=
  ⟨name, "http://example.test"⟩

/-- Fixture: a product row with the given identifier and name. -/
def mkProduct (pid name : String) : ProductData :=
  ⟨pid, name, "desc", "Brand"⟩

/-- Fixture: a job record with the given rows and status. -/
def mkJob (ss : List StoreData) (ps : List ProductData) (status : JobStatus) :
    JobData :=
  ⟨"j", ss, ps, status, 0, none, none⟩

/-- Fixture: an environment whose launch succeeds and whose every navigation
succeeds with price 10, with maxRetries 3. -/
def envAllOk : ScrapeEnv :=
  ⟨Except.ok (), fun _ _ _ => Except.ok 10, 3⟩

/-- Fixture: an environment whose browser launch fails. -/
def envLaunchFail : ScrapeEnv :=
  ⟨Except.error "browser launch failed", fun _ _ _ => Except.ok 10, 3⟩

/-- Fixture: an environment where every navigation for the pair (0, 0) fails
and every other navigation succeeds, with maxRetries 3. -/
def envPairFail : ScrapeEnv :=
  ⟨Except.ok (),
    fun s p _ => if s = 0 ∧ p = 0 then Except.error "net::ERR_TIMED_OUT"
      else Except.ok 10, 3⟩

/-! ### Job-store lemmas -/

theorem getJob_jobsSet_self (st : JobStore) (id : String) (j : JobData) :
    getJob (jobsSet st id j) id = some j := by
  induction st with
  | nil => simp [jobsSet, getJob]
  | cons kv rest ih =>
      by_cases h : kv.1 = id
      · simp [jobsSet, getJob, h]
      · simp [jobsSet, getJob, h, ih]

theorem getJob_jobsSet_other (st : JobStore) (id id' : String) (j : JobData)
    (h : id' ≠ id) : getJob (jobsSet st id j) id' = getJob st id' := by
  have hne : ¬ id = id' := fun hh => h hh.symm
  induction st with
  | nil => simp [jobsSet, getJob, hne]
  | cons kv rest ih =>
      by_cases hk : kv.1 = id
      · subst hk
        simp [jobsSet, getJob, hne]
      · simp only [jobsSet, if_neg hk, getJob]
        by_cases hk' : kv.1 = id'
        · simp [hk']
        · simp [hk', ih]

theorem getJob_updateJobStatus_self (st : JobStore) (id : String)
    (status : JobStatus) (err : Option String) (job : JobData)
    (h : getJob st id = some job) :
    getJob (updateJobStatus st id status err) id =
      some { job with
        status := status
        error :=
          match err with
          | some e => if e = "" then job.error else some e
          | none => job.error } := by
  unfold updateJobStatus
  rw [h]
  exact getJob_jobsSet_self ..

theorem getJob_setResults_self (st : JobStore) (id : String)
    (rs : List ScrapingResult) (job : JobData)
    (h : getJob st id = some job) :
    getJob (setResults st id rs) id = some { job with results := some rs } := by
  unfold setResults
  rw [h]
  exact getJob_jobsSet_self ..

/-! ### Retry-executor lemmas -/

theorem retryGo_transient (fn : ℕ → Except ε α) (mult maxD : ℕ) (e : ℕ → ε)
    (v : α) :
    ∀ (k : ℕ), ∀ (n attempt d : ℕ), k < n →
    (∀ i, i < k → fn (attempt + i) = Except.error (e (attempt + i))) →
    fn (attempt + k) = Except.ok v →
    (retryGo fn mult maxD n attempt d).outcome = Except.ok v ∧
    (retryGo fn mult maxD n attempt d).calls = k + 1 ∧
    (retryGo fn mult maxD n attempt d).onRetryCalls =
      (List.range k).map (fun i => (e (attempt + i), attempt + i)) := by
  intro k
  induction k with
  | zero =>
      intro n attempt d hn _ hs
      rw [Nat.add_zero] at hs
      match n, hn with
      | 1, _ => simp [retryGo, hs]
      | m + 2, _ => simp [retryGo, hs]
  | succ k ih =>
      intro n attempt d hn hf hs
      match n, hn with
      | 1, hn => omega
      | m + 2, hn =>
          have h0 : fn attempt = Except.error (e attempt) := by
            have := hf 0 (by omega)
            simpa using this
          have hf' : ∀ i, i < k →
              fn (attempt + 1 + i) = Except.error (e (attempt + 1 + i)) := by
            intro i hi
            have harw : attempt + 1 + i = attempt + (i + 1) := by omega
            rw [harw]
            exact hf (i + 1) (by omega)
          have hs' : fn (attempt + 1 + k) = Except.ok v := by
            have harw : attempt + 1 + k = attempt + (k + 1) := by omega
            rw [harw]
            exact hs
          have hrec := ih (m + 1) (attempt + 1)
            (min (d * mult) maxD) (by omega) hf' hs'
          refine ⟨?_, ?_, ?_⟩
          · simp only [retryGo, h0]
            exact hrec.1
          · simp only [retryGo, h0]
            rw [hrec.2.1]
          · simp only [retryGo, h0]
            rw [hrec.2.2, List.range_succ_eq_map, List.map_cons,
              List.map_map]
            refine congrArg₂ _ (by simp) ?_
            refine List.map_congr_left ?_
            intro i _
            simp only [Function.comp]
            rw [Nat.add_assoc, Nat.add_comm 1 i]

theorem retryGo_allFail (fn : ℕ → Except ε α) (mult maxD : ℕ) (e : ℕ → ε) :
    ∀ (n : ℕ), ∀ (attempt d : ℕ), 0 < n →
    (∀ i, i < n → fn (attempt + i) = Except.error (e (attempt + i))) →
    (retryGo fn mult maxD n attempt d).outcome =
      Except.error (some (e (attempt + n - 1))) ∧
    (retryGo fn mult maxD n attempt d).calls = n := by
  intro n
  induction n with
  | zero => intro attempt d hn; omega
  | succ m ih =>
      intro attempt d _ hf
      match m with
      | 0 =>
          have h0 : fn attempt = Except.error (e attempt) := by
            simpa using hf 0 (by omega)
          simp [retryGo, h0]
      | m' + 1 =>
          have h0 : fn attempt = Except.error (e attempt) := by
            simpa using hf 0 (by omega)
          have hf' : ∀ i, i < m' + 1 →
              fn (attempt + 1 + i) = Except.error (e (attempt + 1 + i)) := by
            intro i hi
            have harw : attempt + 1 + i = attempt + (i + 1) := by omega
            rw [harw]
            exact hf (i + 1) (by omega)
          have hrec := ih (attempt + 1) (min (d * mult) maxD) (by omega) hf'
          have harg : attempt + 1 + (m' + 1) - 1 = attempt + (m' + 1 + 1) - 1 := by
            omega
          refine ⟨?_, ?_⟩
          · simp only [retryGo, h0]
            rw [hrec.1, harg]
          · simp only [retryGo, h0]
            rw [hrec.2]

theorem retry_transient (fn : ℕ → Except ε α) (opts : RetryOptions)
    (e : ℕ → ε) (v : α) (k : ℕ)
    (hk : (k : ℤ) < opts.maxRetries)
    (hf : ∀ i, 1 ≤ i → i ≤ k → fn i = Except.error (e i))
    (hs : fn (k + 1) = Except.ok v) :
    (retry fn opts).outcome = Except.ok v ∧
    (retry fn opts).calls = k + 1 ∧
    (retry fn opts).onRetryCalls =
      (List.range k).map (fun i => (e (i + 1), i + 1)) := by
  have hpos : ¬ opts.maxRetries ≤ 0 := by omega
  have hkn : k < opts.maxRetries.toNat := by omega
  have hf' : ∀ i, i < k → fn (1 + i) = Except.error (e (1 + i)) := by
    intro i hi
    exact hf (1 + i) (by omega) (by omega)
  have hs' : fn (1 + k) = Except.ok v := by rwa [Nat.add_comm 1 k]
  have h := retryGo_transient fn opts.backoffMultiplier opts.maxDelayMs e v k
    opts.maxRetries.toNat 1 opts.delayMs hkn hf' hs'
  simp only [retry, if_neg hpos]
  refine ⟨h.1, h.2.1, ?_⟩
  rw [h.2.2]
  refine List.map_congr_left ?_
  intro i _
  rw [Nat.add_comm 1 i]

theorem retry_allFail (fn : ℕ → Except ε α) (opts : RetryOptions) (e : ℕ → ε)
    (hpos : 1 ≤ opts.maxRetries)
    (hf : ∀ i : ℕ, 1 ≤ i → (i : ℤ) ≤ opts.maxRetries → fn i = Except.error (e i)) :
    (retry fn opts).outcome = Except.error (some (e opts.maxRetries.toNat)) ∧
    (retry fn opts).calls = opts.maxRetries.toNat := by
  have hne : ¬ opts.maxRetries ≤ 0 := by omega
  have hf' : ∀ i, i < opts.maxRetries.toNat →
      fn (1 + i) = Except.error (e (1 + i)) := by
    intro i hi
    exact hf (1 + i) (by omega) (by omega)
  have h := retryGo_allFail fn opts.backoffMultiplier opts.maxDelayMs e
    opts.maxRetries.toNat 1 opts.delayMs (by omega) hf'
  have harg : 1 + opts.maxRetries.toNat - 1 = opts.maxRetries.toNat := by omega
  simp only [retry, if_neg hne]
  rw [harg] at h
  exact h

theorem retry_nonpos (fn : ℕ → Except ε α) (opts : RetryOptions)
    (h : opts.maxRetries ≤ 0) :
    retry fn opts = ⟨Except.error none, 0, [], []⟩ := by
  simp [retry, h]

/-! ### Task and loop lemmas -/

theorem retryGo_ok_exists (fn : ℕ → Except ε α) (mult maxD : ℕ) :
    ∀ (n attempt d : ℕ) (a : α),
    (retryGo fn mult maxD n attempt d).outcome = Except.ok a →
    ∃ i, fn i = Except.ok a := by
  intro n
  induction n with
  | zero => intro attempt d a h; simp [retryGo] at h
  | succ m ih =>
      intro attempt d a h
      match m with
      | 0 =>
          cases hf : fn attempt with
          | ok b =>
              refine ⟨attempt, ?_⟩
              simp only [retryGo, hf] at h
              rw [hf]
              exact congrArg Except.ok (Except.ok.inj h)
          | error e => simp [retryGo, hf] at h
      | m' + 1 =>
          cases hf : fn attempt with
          | ok b =>
              refine ⟨attempt, ?_⟩
              simp only [retryGo, hf] at h
              rw [hf]
              exact congrArg Except.ok (Except.ok.inj h)
          | error e =>
              simp only [retryGo, hf] at h
              exact ih (attempt + 1) (min (d * mult) maxD) a h

theorem retry_ok_exists (fn : ℕ → Except ε α) (opts : RetryOptions) (a : α)
    (h : (retry fn opts).outcome = Except.ok a) : ∃ i, fn i = Except.ok a := by
  by_cases hm : opts.maxRetries ≤ 0
  · simp [retry, hm] at h
  · simp only [retry, if_neg hm] at h
    exact retryGo_ok_exists fn opts.backoffMultiplier opts.maxDelayMs
      opts.maxRetries.toNat 1 opts.delayMs a h

theorem runTask_identity (env : ScrapeEnv) (store : StoreData)
    (product : ProductData) (s p : ℕ) :
    (runTask env store product s p).storeName = store.storeName ∧
    (runTask env store product s p).productId = product.productId ∧
    (runTask env store product s p).productName = product.productName ∧
    (runTask env store product s p).brand = product.brand := by
  unfold runTask
  cases hout : (retry (fun attempt => scrapeProduct env store product s p attempt)
      (scrapeRetryOptions env.maxRetries)).outcome with
  | error e => exact ⟨rfl, rfl, rfl, rfl⟩
  | ok r =>
      obtain ⟨i, hi⟩ := retry_ok_exists _ _ _ hout
      cases hnav : env.nav s p i with
      | error e => simp [scrapeProduct, hnav] at hi
      | ok q =>
          simp only [scrapeProduct, hnav] at hi
          have hr : r = _ := (Except.ok.inj hi).symm
          rw [hr]
          exact ⟨rfl, rfl, rfl, rfl⟩

theorem runTask_allFail (env : ScrapeEnv) (store : StoreData)
    (product : ProductData) (s p : ℕ) (msgs : ℕ → String)
    (hpos : 1 ≤ env.maxRetries)
    (hf : ∀ a : ℕ, 1 ≤ a → (a : ℤ) ≤ env.maxRetries →
      env.nav s p a = Except.error (msgs a)) :
    runTask env store product s p =
      errorResult store product (some (msgs env.maxRetries.toNat)) := by
  have hfun : ∀ a : ℕ, 1 ≤ a → (a : ℤ) ≤ (scrapeRetryOptions env.maxRetries).maxRetries →
      (fun attempt => scrapeProduct env store product s p attempt) a =
        Except.error (msgs a) := by
    intro a h1 h2
    simp only [scrapeProduct, hf a h1 h2]
  have h := retry_allFail
    (fun attempt => scrapeProduct env store product s p attempt)
    (scrapeRetryOptions env.maxRetries) msgs hpos hfun
  unfold runTask
  rw [h.1]
  rfl

theorem runProducts_counter (env : ScrapeEnv) (total : ℕ) (store : StoreData)
    (sIdx : ℕ) :
    ∀ (ps : List ProductData) (pIdx c : ℕ),
    (runProducts env total store sIdx ps pIdx c).2.2 = c + ps.length := by
  intro ps
  induction ps with
  | nil => intro pIdx c; simp [runProducts]
  | cons product rest ih =>
      intro pIdx c
      simp only [runProducts, ih, List.length_cons]
      omega

theorem runProducts_results_length (env : ScrapeEnv) (total : ℕ)
    (store : StoreData) (sIdx : ℕ) :
    ∀ (ps : List ProductData) (pIdx c : ℕ),
    (runProducts env total store sIdx ps pIdx c).1.length = ps.length := by
  intro ps
  induction ps with
  | nil => intro pIdx c; simp [runProducts]
  | cons product rest ih =>
      intro pIdx c
      simp [runProducts, ih]

theorem runProducts_events_length (env : ScrapeEnv) (total : ℕ)
    (store : StoreData) (sIdx : ℕ) :
    ∀ (ps : List ProductData) (pIdx c : ℕ),
    (runProducts env total store sIdx ps pIdx c).2.1.length = ps.length := by
  intro ps
  induction ps with
  | nil => intro pIdx c; simp [runProducts]
  | cons product rest ih =>
      intro pIdx c
      simp [runProducts, ih]

theorem runProducts_results_getElem (env : ScrapeEnv) (total : ℕ)
    (store : StoreData) (sIdx : ℕ) :
    ∀ (ps : List ProductData) (pIdx c p : ℕ) (product : ProductData),
    ps[p]? = some product →
    (runProducts env total store sIdx ps pIdx c).1[p]? =
      some (runTask env store product sIdx (pIdx + p)) := by
  intro ps
  induction ps with
  | nil => intro pIdx c p product h; simp at h
  | cons q rest ih =>
      intro pIdx c p product h
      match p with
      | 0 =>
          simp only [List.getElem?_cons_zero, Option.some.injEq] at h
          subst h
          simp [runProducts]
      | p' + 1 =>
          simp only [List.getElem?_cons_succ] at h
          have := ih (pIdx + 1) (c + 1) p' product h
          simp only [runProducts, List.getElem?_cons_succ]
          rw [this]
          have harw : pIdx + 1 + p' = pIdx + (p' + 1) := by omega
          rw [harw]

theorem runProducts_events_getElem (env : ScrapeEnv) (total : ℕ)
    (store : StoreData) (sIdx : ℕ) :
    ∀ (ps : List ProductData) (pIdx c p : ℕ) (product : ProductData),
    ps[p]? = some product →
    (runProducts env total store sIdx ps pIdx c).2.1[p]? =
      some (taskEvent store product total (c + p + 1)) := by
  intro ps
  induction ps with
  | nil => intro pIdx c p product h; simp at h
  | cons q rest ih =>
      intro pIdx c p product h
      match p with
      | 0 =>
          simp only [List.getElem?_cons_zero, Option.some.injEq] at h
          subst h
          simp [runProducts]
      | p' + 1 =>
          simp only [List.getElem?_cons_succ] at h
          have := ih (pIdx + 1) (c + 1) p' product h
          simp only [runProducts, List.getElem?_cons_succ]
          rw [this]
          have harw : c + 1 + p' + 1 = c + (p' + 1) + 1 := by omega
          rw [harw]

theorem runProducts_idPairs (env : ScrapeEnv) (total : ℕ) (store : StoreData)
    (sIdx : ℕ) :
    ∀ (ps : List ProductData) (pIdx c : ℕ),
    (runProducts env total store sIdx ps pIdx c).1.map idPair =
      ps.map (fun product => (store.storeName, product.productId)) := by
  intro ps
  induction ps with
  | nil => intro pIdx c; simp [runProducts]
  | cons product rest ih =>
      intro pIdx c
      simp only [runProducts, List.map_cons, ih]
      have h := runTask_identity env store product sIdx pIdx
      simp [idPair, h.1, h.2.1]

theorem runProducts_percents (env : ScrapeEnv) (total : ℕ) (store : StoreData)
    (sIdx : ℕ) (ht : total ≠ 0) :
    ∀ (ps : List ProductData) (pIdx c : ℕ),
    percentsOf (runProducts env total store sIdx ps pIdx c).2.1 =
      (List.range ps.length).map (fun j => pctN (c + j + 1) total) := by
  intro ps
  induction ps with
  | nil => intro pIdx c; simp [runProducts, percentsOf]
  | cons product rest ih =>
      intro pIdx c
      have hp1 : (taskEvent store product total (c + 1)).progress =
          some (pctN (c + 1) total) := by
        simp [taskEvent, roundPct, pctN, ht]
      simp only [runProducts, percentsOf, List.filterMap_cons, hp1]
      have := ih (pIdx + 1) (c + 1)
      simp only [percentsOf] at this
      rw [this, List.length_cons, List.range_succ_eq_map, List.map_cons,
        List.map_map]
      refine congrArg₂ _ rfl ?_
      refine List.map_congr_left ?_
      intro j _
      simp only [Function.comp]
      have : c + 1 + j + 1 = c + (j + 1) + 1 := by omega
      rw [this]

theorem runProducts_percents_zero (env : ScrapeEnv) (store : StoreData)
    (sIdx : ℕ) :
    ∀ (ps : List ProductData) (pIdx c : ℕ),
    percentsOf (runProducts env 0 store sIdx ps pIdx c).2.1 = [] := by
  intro ps
  induction ps with
  | nil => intro pIdx c; simp [runProducts, percentsOf]
  | cons product rest ih =>
      intro pIdx c
      have hp : (taskEvent store product 0 (c + 1)).progress = none := by
        simp [taskEvent, roundPct]
      simp only [runProducts, percentsOf, List.filterMap_cons, hp]
      exact ih (pIdx + 1) (c + 1)

theorem getElem?_some_lt {α : Type} {l : List α} {n : ℕ} {a : α}
    (h : l[n]? = some a) : n < l.length :=
  (List.getElem?_eq_some.mp h).1

theorem runStores_counter (env : ScrapeEnv) (ps : List ProductData)
    (total : ℕ) :
    ∀ (stores : List StoreData) (sIdx c : ℕ),
    (runStores env ps total stores sIdx c).2.2 =
      c + stores.length * ps.length := by
  intro stores
  induction stores with
  | nil => intro sIdx c; simp [runStores]
  | cons store rest ih =>
      intro sIdx c
      simp only [runStores, ih, runProducts_counter, List.length_cons]
      ring

theorem runStores_results_length (env : ScrapeEnv) (ps : List ProductData)
    (total : ℕ) :
    ∀ (stores : List StoreData) (sIdx c : ℕ),
    (runStores env ps total stores sIdx c).1.length =
      stores.length * ps.length := by
  intro stores
  induction stores with
  | nil => intro sIdx c; simp [runStores]
  | cons store rest ih =>
      intro sIdx c
      simp only [runStores, List.length_append, runProducts_results_length,
        ih, List.length_cons]
      ring

theorem runStores_events_length (env : ScrapeEnv) (ps : List ProductData)
    (total : ℕ) :
    ∀ (stores : List StoreData) (sIdx c : ℕ),
    (runStores env ps total stores sIdx c).2.1.length =
      stores.length * (ps.length + 1) := by
  intro stores
  induction stores with
  | nil => intro sIdx c; simp [runStores]
  | cons store rest ih =>
      intro sIdx c
      simp only [runStores, List.length_cons, List.length_append,
        runProducts_events_length, ih]
      ring

theorem runStores_results_getElem (env : ScrapeEnv) (ps : List ProductData)
    (total : ℕ) :
    ∀ (stores : List StoreData) (sIdx c s p : ℕ) (store : StoreData)
      (product : ProductData),
    stores[s]? = some store → ps[p]? = some product →
    (runStores env ps total stores sIdx c).1[s * ps.length + p]? =
      some (runTask env store product (sIdx + s) p) := by
  intro stores
  induction stores with
  | nil => intro sIdx c s p store product hs; simp at hs
  | cons q rest ih =>
      intro sIdx c s p store product hs hp
      have hpl : p < ps.length := getElem?_some_lt hp
      match s with
      | 0 =>
          simp only [List.getElem?_cons_zero, Option.some.injEq] at hs
          subst hs
          simp only [runStores, Nat.zero_mul, Nat.zero_add,
            List.getElem?_append, runProducts_results_length, if_pos hpl]
          have := runProducts_results_getElem env total q sIdx ps 0 c
            p product hp
          rw [this, Nat.zero_add, Nat.add_zero]
      | s' + 1 =>
          simp only [List.getElem?_cons_succ] at hs
          have hmul : (s' + 1) * ps.length = s' * ps.length + ps.length := by
            ring
          have hge : ¬ ((s' + 1) * ps.length + p < ps.length) := by omega
          simp only [runStores, List.getElem?_append,
            runProducts_results_length]
          rw [if_neg hge]
          have harw : (s' + 1) * ps.length + p - ps.length =
              s' * ps.length + p := by omega
          rw [harw]
          have := ih (sIdx + 1) ((runProducts env total q sIdx ps 0 c).2.2)
            s' p store product hs hp
          rw [this]
          have : sIdx + 1 + s' = sIdx + (s' + 1) := by omega
          rw [this]

theorem runStores_events_getElem (env : ScrapeEnv) (ps : List ProductData)
    (total : ℕ) :
    ∀ (stores : List StoreData) (sIdx c s p : ℕ) (store : StoreData)
      (product : ProductData),
    stores[s]? = some store → ps[p]? = some product →
    (runStores env ps total stores sIdx c).2.1[s * (ps.length + 1) + 1 + p]? =
      some (taskEvent store product total (c + s * ps.length + p + 1)) := by
  intro stores
  induction stores with
  | nil => intro sIdx c s p store product hs; simp at hs
  | cons q rest ih =>
      intro sIdx c s p store product hs hp
      have hpl : p < ps.length := getElem?_some_lt hp
      match s with
      | 0 =>
          simp only [List.getElem?_cons_zero, Option.some.injEq] at hs
          subst hs
          have hidx : 0 * (ps.length + 1) + 1 + p = p + 1 := by ring
          rw [hidx]
          simp only [runStores, List.getElem?_cons_succ,
            List.getElem?_append, runProducts_events_length, if_pos hpl]
          have := runProducts_events_getElem env total q sIdx ps 0 c
            p product hp
          rw [this, Nat.zero_mul]
          have harw : c + 0 + p + 1 = c + p + 1 := by omega
          rw [harw]
      | s' + 1 =>
          simp only [List.getElem?_cons_succ] at hs
          have hidx : (s' + 1) * (ps.length + 1) + 1 + p =
              (s' * (ps.length + 1) + 1 + p + ps.length) + 1 := by ring
          rw [hidx]
          have hge : ¬ (s' * (ps.length + 1) + 1 + p + ps.length <
              ps.length) := by omega
          simp only [runStores, List.getElem?_cons_succ,
            List.getElem?_append, runProducts_events_length]
          rw [if_neg hge]
          have harw : s' * (ps.length + 1) + 1 + p + ps.length - ps.length =
              s' * (ps.length + 1) + 1 + p := by omega
          rw [harw]
          have hc1 : (runProducts env total q sIdx ps 0 c).2.2 =
              c + ps.length := by
            rw [runProducts_counter]
          have := ih (sIdx + 1) ((runProducts env total q sIdx ps 0 c).2.2)
            s' p store product hs hp
          rw [this, hc1]
          have harw2 : c + ps.length + s' * ps.length + p + 1 =
              c + (s' + 1) * ps.length + p + 1 := by
            have : (s' + 1) * ps.length = s' * ps.length + ps.length := by ring
            omega
          rw [harw2]

theorem runStores_idPairs (env : ScrapeEnv) (ps : List ProductData)
    (total : ℕ) :
    ∀ (stores : List StoreData) (sIdx c : ℕ),
    (runStores env ps total stores sIdx c).1.map idPair =
      stores.flatMap (fun store =>
        ps.map (fun product => (store.storeName, product.productId))) := by
  intro stores
  induction stores with
  | nil => intro sIdx c; simp [runStores]
  | cons store rest ih =>
      intro sIdx c
      simp only [runStores, List.map_append, runProducts_idPairs, ih,
        List.flatMap_cons]

theorem runStores_percents (env : ScrapeEnv) (ps : List ProductData)
    (total : ℕ) (ht : total ≠ 0) :
    ∀ (stores : List StoreData) (sIdx c : ℕ),
    percentsOf (runStores env ps total stores sIdx c).2.1 =
      (runCounts ps.length stores.length c).map (fun x => pctN x total) := by
  intro stores
  induction stores with
  | nil => intro sIdx c; simp [runStores, percentsOf, runCounts]
  | cons store rest ih =>
      intro sIdx c
      have hse : (storeEvent store total c).progress =
          some (pctN c total) := by
        simp [storeEvent, roundPct, pctN, ht]
      simp only [runStores, percentsOf, List.filterMap_cons, hse,
        List.filterMap_append]
      have h1 := runProducts_percents env total store sIdx ht ps 0 c
      simp only [percentsOf] at h1
      have h2 := ih (sIdx + 1) ((runProducts env total store sIdx ps 0 c).2.2)
      simp only [percentsOf] at h2
      rw [h1, h2, runProducts_counter]
      simp [List.length_cons, runCounts, List.map_append, List.map_cons,
        List.map_map, Function.comp]

theorem runStores_percents_zero (env : ScrapeEnv) (ps : List ProductData) :
    ∀ (stores : List StoreData) (sIdx c : ℕ),
    percentsOf (runStores env ps 0 stores sIdx c).2.1 = [] := by
  intro stores
  induction stores with
  | nil => intro sIdx c; simp [runStores, percentsOf]
  | cons store rest ih =>
      intro sIdx c
      have hse : (storeEvent store 0 c).progress = none := by
        simp [storeEvent, roundPct]
      have h1 := runProducts_percents_zero env store sIdx ps 0 c
      simp only [percentsOf] at h1
      simp only [runStores, percentsOf, List.filterMap_cons, hse,
        List.filterMap_append]
      rw [h1]
      have h2 := ih (sIdx + 1) ((runProducts env 0 store sIdx ps 0 c).2.2)
      simp only [percentsOf] at h2
      rw [h2]
      simp

/-! ### Percent monotonicity -/

theorem pctN_mono (t : ℕ) {c c' : ℕ} (h : c ≤ c') : pctN c t ≤ pctN c' t := by
  unfold pctN
  exact Nat.div_le_div_right (by omega)

theorem pctN_zero (t : ℕ) (ht : t ≠ 0) : pctN 0 t = 0 := by
  unfold pctN
  rw [Nat.mul_zero, Nat.zero_add]
  exact Nat.div_eq_of_lt (by omega)

theorem pctN_total (t : ℕ) (ht : t ≠ 0) : pctN t t = 100 := by
  unfold pctN
  have h1 : 200 * t + t = t + 2 * t * 100 := by ring
  have h2 : (t + 2 * t * 100) / (2 * t) = t / (2 * t) + 100 :=
    Nat.add_mul_div_left _ _ (by omega)
  have h3 : t / (2 * t) = 0 := Nat.div_eq_of_lt (by omega)
  rw [h1, h2, h3]

theorem chain_le_range_map (P : ℕ) :
    ∀ (c : ℕ) (rest : List ℕ),
    List.Chain (fun a b => a ≤ b) (c + P) rest →
    List.Chain (fun a b => a ≤ b) c
      ((List.range P).map (fun j => c + j + 1) ++ rest) := by
  induction P with
  | zero =>
      intro c rest h
      simpa using h
  | succ P ih =>
      intro c rest h
      rw [List.range_succ_eq_map, List.map_cons, List.map_map,
        List.cons_append, List.chain_cons]
      constructor
      · omega
      · have hmap : (List.map ((fun j => c + j + 1) ∘ Nat.succ)
            (List.range P)) =
            (List.range P).map (fun j => (c + 1) + j + 1) := by
          refine List.map_congr_left ?_
          intro j _
          simp only [Function.comp]
          omega
        rw [hmap]
        refine ih (c + 1) rest ?_
        have : c + 1 + P = c + (P + 1) := by omega
        rw [this]
        exact h

theorem runCounts_chain (P : ℕ) :
    ∀ (S c : ℕ),
    List.Chain (fun a b => a ≤ b) c (runCounts P S c ++ [c + S * P]) := by
  intro S
  induction S with
  | zero =>
      intro c
      simp only [runCounts, List.nil_append, List.chain_cons]
      exact ⟨by omega, List.Chain.nil⟩
  | succ S ih =>
      intro c
      simp only [runCounts, List.cons_append, List.append_assoc,
        List.chain_cons]
      constructor
      · omega
      · refine chain_le_range_map P c _ ?_
        have harw : c + (S + 1) * P = (c + P) + S * P := by ring
        rw [harw]
        exact ih (c + P)

/-! ### Run-level lemmas -/

theorem startScraping_success (st : JobStore) (jid : String) (job : JobData)
    (env : ScrapeEnv) (hjob : getJob st jid = some job)
    (hl : env.launch = Except.ok ()) :
    startScraping st jid env =
      ⟨updateJobStatus
          (setResults (updateJobStatus st jid JobStatus.processing none) jid
            (runStores env job.products
              (job.stores.length * job.products.length) job.stores 0 0).1)
          jid JobStatus.completed none,
        initEvent ::
          (runStores env job.products
            (job.stores.length * job.products.length) job.stores 0 0).2.1 ++
          [completedEvent
            (runStores env job.products
              (job.stores.length * job.products.length) job.stores 0 0).1
            job.stores.length],
        Except.ok ()⟩ := by
  simp only [startScraping, hjob, hl]

theorem startScraping_fail (st : JobStore) (jid : String) (job : JobData)
    (env : ScrapeEnv) (e : String) (hjob : getJob st jid = some job)
    (hl : env.launch = Except.error e) :
    startScraping st jid env =
      ⟨updateJobStatus (updateJobStatus st jid JobStatus.processing none) jid
          JobStatus.failed (some e),
        [initEvent, failedEvent e],
        Except.error e⟩ := by
  simp only [startScraping, hjob, hl]

theorem startScraping_success_record (st : JobStore) (jid : String)
    (job : JobData) (env : ScrapeEnv) (hjob : getJob st jid = some job)
    (hl : env.launch = Except.ok ()) :
    getJob (startScraping st jid env).store jid =
      some { job with
        status := JobStatus.completed
        results := some (runStores env job.products
          (job.stores.length * job.products.length) job.stores 0 0).1 } := by
  rw [startScraping_success st jid job env hjob hl]
  have g1 := getJob_updateJobStatus_self st jid JobStatus.processing none
    job hjob
  have g2 := getJob_setResults_self _ jid
    (runStores env job.products
      (job.stores.length * job.products.length) job.stores 0 0).1 _ g1
  have g3 := getJob_updateJobStatus_self _ jid JobStatus.completed none _ g2
  rw [g3]

theorem startScraping_fail_record (st : JobStore) (jid : String)
    (job : JobData) (env : ScrapeEnv) (e : String)
    (hjob : getJob st jid = some job)
    (hl : env.launch = Except.error e) :
    getJob (startScraping st jid env).store jid =
      some { job with
        status := JobStatus.failed
        error := if e = "" then job.error else some e } := by
  rw [startScraping_fail st jid job env e hjob hl]
  have g1 := getJob_updateJobStatus_self st jid JobStatus.processing none
    job hjob
  have g2 := getJob_updateJobStatus_self _ jid JobStatus.failed (some e) _ g1
  rw [g2]

theorem nodup_pair_flatMap (stores : List StoreData) (ps : List ProductData)
    (hsn : (stores.map (fun s => s.storeName)).Nodup)
    (hpid : (ps.map (fun p => p.productId)).Nodup) :
    (stores.flatMap (fun store =>
      ps.map (fun product => (store.storeName, product.productId)))).Nodup := by
  induction stores with
  | nil => simp
  | cons q rest ih =>
      simp only [List.map_cons, List.nodup_cons] at hsn
      simp only [List.flatMap_cons, List.nodup_append]
      refine ⟨?_, ih hsn.2, ?_⟩
      · have hcomp : ps.map (fun product => (q.storeName, product.productId)) =
            (ps.map (fun product => product.productId)).map
              (fun x => (q.storeName, x)) := by
          simp [List.map_map, Function.comp]
        rw [hcomp]
        refine hpid.map ?_
        intro a b hab
        exact (Prod.ext_iff.mp hab).2
      · intro a ha hmem
        simp only [List.mem_map] at ha
        obtain ⟨p, _, rfl⟩ := ha
        simp only [List.mem_flatMap, List.mem_map] at hmem
        obtain ⟨s2, hs2, p2, _, hp2⟩ := hmem
        have heq : s2.storeName = q.storeName := (Prod.ext_iff.mp hp2).1
        refine hsn.1 ?_
        simp only [List.mem_map]
        exact ⟨s2, hs2, heq⟩

/-! ### Claims -/

/-- C2 (amended): starting a job that is PROCESSING or COMPLETED fails with a
400 AppError and leaves the job store (hence the recorded Status and Results)
unchanged, emitting no events; but FAILED is not treated as terminal by the
guard: starting a FAILED job is accepted (202), so FAILED → PROCESSING is
reachable.  The original claim, that any state other than UPLOADED is
rejected, is refuted by the counterexample below. -/
theorem claim_C2 (st : JobStore) (jid : String) (job : JobData)
    (env : ScrapeEnv) (hjob : getJob st jid = some job) :
    (job.status = JobStatus.processing →
      scrapeController st (some jid) env =
        ⟨Except.error (AppError.badRequest
          ("Job " ++ jid ++ " is already being processed")), st, [], none⟩) ∧
    (job.status = JobStatus.completed →
      scrapeController st (some jid) env =
        ⟨Except.error (AppError.badRequest
          ("Job " ++ jid ++ " has already been completed")), st, [], none⟩) ∧
    (job.status = JobStatus.failed →
      (scrapeController st (some jid) env).response = Except.ok ()) := by
  refine ⟨?_, ?_, ?_⟩ <;> intro hstat <;>
    simp [scrapeController, hjob, hstat]

/-- C2 counterexample: a job in the terminal state FAILED is accepted by the
start guard (no InvalidJobState) and the triggered run moves it back through
PROCESSING to COMPLETED, so a terminal state is left. -/
theorem claim_C2_counterexample :
    (scrapeController [("j", mkJob [] [] JobStatus.failed)] (some "j")
      envAllOk).response = Except.ok () ∧
    (getJob (scrapeController [("j", mkJob [] [] JobStatus.failed)] (some "j")
      envAllOk).store "j").map (fun j => j.status) =
      some JobStatus.completed := by
  exact ⟨rfl, rfl⟩

/-- C2 witness: a concrete PROCESSING job is rejected with the 400 error and
the store is unchanged. -/
theorem claim_C2_witness :
    getJob [("j", mkJob [] [] JobStatus.processing)] "j" =
      some (mkJob [] [] JobStatus.processing) ∧
    scrapeController [("j", mkJob [] [] JobStatus.processing)] (some "j")
        envAllOk =
      ⟨Except.error (AppError.badRequest "Job j is already being processed"),
        [("j", mkJob [] [] JobStatus.processing)], [], none⟩ :=
  ⟨rfl, (claim_C2 [("j", mkJob [] [] JobStatus.processing)] "j"
    (mkJob [] [] JobStatus.processing) envAllOk rfl).1 rfl⟩

/-- C3: an operation that fails on exactly k consecutive invocations and then
succeeds, with k < maxRetries, makes the retry executor return the success
value, invoke the operation exactly k + 1 times, and invoke onRetry exactly k
times, at attempt numbers 1..k with the corresponding errors. -/
theorem claim_C3 {ε α : Type} (fn : ℕ → Except ε α) (opts : RetryOptions)
    (e : ℕ → ε) (v : α) (k : ℕ)
    (hk : (k : ℤ) < opts.maxRetries)
    (hf : ∀ i, 1 ≤ i → i ≤ k → fn i = Except.error (e i))
    (hs : fn (k + 1) = Except.ok v) :
    (retry fn opts).outcome = Except.ok v ∧
    (retry fn opts).calls = k + 1 ∧
    (retry fn opts).onRetryCalls =
      (List.range k).map (fun i => (e (i + 1), i + 1)) :=
  retry_transient fn opts e v k hk hf hs

/-- C3 witness: an operation failing on attempts 1 and 2 and succeeding on
attempt 3, with maxRetries 3: value 42 returned, 3 invocations, onRetry
invoked for attempts 1 and 2. -/
theorem claim_C3_witness :
    (retry (fun n => if n ≤ 2
        then (Except.error ("attempt " ++ toString n) : Except String ℕ)
        else Except.ok 42) ⟨3, 1000, 2, 30000⟩).outcome = Except.ok 42 ∧
    (retry (fun n => if n ≤ 2
        then (Except.error ("attempt " ++ toString n) : Except String ℕ)
        else Except.ok 42) ⟨3, 1000, 2, 30000⟩).calls = 2 + 1 ∧
    (retry (fun n => if n ≤ 2
        then (Except.error ("attempt " ++ toString n) : Except String ℕ)
        else Except.ok 42) ⟨3, 1000, 2, 30000⟩).onRetryCalls =
      [("attempt 1", 1), ("attempt 2", 2)] := by
  have h := claim_C3 (fun n => if n ≤ 2
      then (Except.error ("attempt " ++ toString n) : Except String ℕ)
      else Except.ok 42) ⟨3, 1000, 2, 30000⟩
    (fun n => "attempt " ++ toString n) 42 2
    (by decide)
    (by intro i h1 h2; interval_cases i <;> rfl)
    (by rfl)
  refine ⟨h.1, h.2.1, ?_⟩
  rw [h.2.2]
  rfl

/-- C8 (amended): saveJob unconditionally maps the identifier to the new
record: it silently overwrites an existing job with the same identifier
(leaving all other identifiers untouched) instead of failing with
DuplicateJob. -/
theorem claim_C8 (st : JobStore) (j : JobData) :
    getJob (saveJob st j) j.jobId = some j ∧
    ∀ id, id ≠ j.jobId → getJob (saveJob st j) id = getJob st id :=
  ⟨getJob_jobsSet_self st j.jobId j,
    fun id h => getJob_jobsSet_other st j.jobId id j h⟩

/-- C8 counterexample: saving a record whose identifier already exists does
not fail; it replaces the previously stored, different record. -/
theorem claim_C8_counterexample :
    getJob (saveJob [("j", mkJob [mkStore "A"] [] JobStatus.uploaded)]
      (mkJob [] [] JobStatus.failed)) "j" =
      some (mkJob [] [] JobStatus.failed) ∧
    mkJob [] [] JobStatus.failed ≠ mkJob [mkStore "A"] [] JobStatus.uploaded := by
  exact ⟨rfl, by decide⟩

/-- C8 witness: overwrite at the stored key, other keys unchanged. -/
theorem claim_C8_witness :
    getJob (saveJob [("j", mkJob [mkStore "A"] [] JobStatus.uploaded)]
      (mkJob [] [] JobStatus.failed)) "j" = some (mkJob [] [] JobStatus.failed) ∧
    getJob (saveJob [("j", mkJob [mkStore "A"] [] JobStatus.uploaded)]
      (mkJob [] [] JobStatus.failed)) "k" =
      getJob [("j", mkJob [mkStore "A"] [] JobStatus.uploaded)] "k" :=
  ⟨(claim_C8 [("j", mkJob [mkStore "A"] [] JobStatus.uploaded)]
      (mkJob [] [] JobStatus.failed)).1,
    (claim_C8 [("j", mkJob [mkStore "A"] [] JobStatus.uploaded)]
      (mkJob [] [] JobStatus.failed)).2 "k" (by decide)⟩

/-- C9 (amended): when a run aborts with a job-fatal error (possible only at
browser initialization, before any task), the job transitions to FAILED with
the error message recorded (unless the message is the empty string, which the
truthiness test drops), the two events emitted are the initial one and the
failure one, and no Result list is attached: the record keeps its previous
results field, so no partial Results are retained on the record. -/
theorem claim_C9 (st : JobStore) (jid : String) (job : JobData)
    (env : ScrapeEnv) (e : String) (hjob : getJob st jid = some job)
    (hl : env.launch = Except.error e) :
    (startScraping st jid env).result = Except.error e ∧
    (startScraping st jid env).events = [initEvent, failedEvent e] ∧
    getJob (startScraping st jid env).store jid =
      some { job with
        status := JobStatus.failed
        error := if e = "" then job.error else some e } ∧
    ((getJob (startScraping st jid env).store jid).map (fun j => j.results)) =
      some job.results := by
  have hrec := startScraping_fail_record st jid job env e hjob hl
  have hout := startScraping_fail st jid job env e hjob hl
  refine ⟨?_, ?_, hrec, ?_⟩
  · rw [hout]
  · rw [hout]
  · rw [hrec]
    rfl

/-- C9 counterexample: a run that aborts fatally leaves the FAILED record
with results = none - no (even empty) partial Result list is attached, and
resultsCount reports 0, contradicting retention of accumulated Results. -/
theorem claim_C9_counterexample :
    (startScraping [("j", mkJob [mkStore "A"] [mkProduct "P1" "Milk"]
      JobStatus.uploaded)] "j" envLaunchFail).result =
      Except.error "browser launch failed" ∧
    (getJob (startScraping [("j", mkJob [mkStore "A"] [mkProduct "P1" "Milk"]
      JobStatus.uploaded)] "j" envLaunchFail).store "j").map
      (fun j => (j.status, j.error, j.results)) =
      some (JobStatus.failed, some "browser launch failed", none) ∧
    (getJob (startScraping [("j", mkJob [mkStore "A"] [mkProduct "P1" "Milk"]
      JobStatus.uploaded)] "j" envLaunchFail).store "j").map resultsCount =
      some 0 ∧
    (none : Option (List ScrapingResult)) ≠ some [] := by
  exact ⟨rfl, rfl, rfl, by decide⟩

/-- C9 witness: the amended behavior at a concrete failing launch. -/
theorem claim_C9_witness :
    (startScraping [("j", mkJob [mkStore "A"] [mkProduct "P1" "Milk"]
      JobStatus.uploaded)] "j" envLaunchFail).events =
      [initEvent, failedEvent "browser launch failed"] ∧
    getJob (startScraping [("j", mkJob [mkStore "A"] [mkProduct "P1" "Milk"]
      JobStatus.uploaded)] "j" envLaunchFail).store "j" =
      some { (mkJob [mkStore "A"] [mkProduct "P1" "Milk"] JobStatus.uploaded) with
        status := JobStatus.failed
        error := some "browser launch failed" } := by
  have h := claim_C9 [("j", mkJob [mkStore "A"] [mkProduct "P1" "Milk"]
    JobStatus.uploaded)] "j" (mkJob [mkStore "A"] [mkProduct "P1" "Milk"]
    JobStatus.uploaded) envLaunchFail "browser launch failed" rfl rfl
  exact ⟨h.2.1, h.2.2.1⟩

/-- C10: a retry configuration with maxRetries not positive makes the retry
executor throw without ever invoking the operation: the loop body never runs
(calls = 0) and the unassigned lastError, i.e. the non-Error value undefined
(modelled as the none payload), is thrown. -/
theorem claim_C10 {ε α : Type} (fn : ℕ → Except ε α) (opts : RetryOptions)
    (h : opts.maxRetries ≤ 0) :
    retry fn opts = ⟨Except.error none, 0, [], []⟩ :=
  retry_nonpos fn opts h

/-- C10 witness: maxRetries = -1 with an operation that would always succeed:
zero invocations, undefined thrown. -/
theorem claim_C10_witness :
    ((-1 : ℤ) ≤ 0) ∧
    retry (fun _ => (Except.ok 7 : Except String ℕ)) ⟨-1, 1000, 2, 30000⟩ =
      ⟨Except.error none, 0, [], []⟩ :=
  ⟨by decide, claim_C10 _ _ (by decide)⟩

/-- C1 (amended): for a job with non-empty stores and products, a run whose
initialization succeeds attaches exactly S times P results to the completed
record, one per (store, product) pair in order, and the (storeName,
productId) identity pairs are pairwise distinct under the precondition that
product identifiers are unique within the job AND store names are unique
within the job; no pair is dropped whether its task succeeded or failed.
The original claim assumed productId uniqueness alone suffices, which the
counterexample below refutes (two stores may share a name). -/
theorem claim_C1 (st : JobStore) (jid : String) (job : JobData)
    (env : ScrapeEnv) (hjob : getJob st jid = some job)
    (hl : env.launch = Except.ok ())
    (hs1 : job.stores ≠ []) (hp1 : job.products ≠ [])
    (hpid : (job.products.map (fun p => p.productId)).Nodup)
    (hsn : (job.stores.map (fun s => s.storeName)).Nodup) :
    getJob (startScraping st jid env).store jid =
      some { job with
        status := JobStatus.completed
        results := some (runStores env job.products
          (job.stores.length * job.products.length) job.stores 0 0).1 } ∧
    (runStores env job.products (job.stores.length * job.products.length)
      job.stores 0 0).1.length = job.stores.length * job.products.length ∧
    (runStores env job.products (job.stores.length * job.products.length)
      job.stores 0 0).1.map idPair =
      job.stores.flatMap (fun store =>
        job.products.map (fun product =>
          (store.storeName, product.productId))) ∧
    ((runStores env job.products (job.stores.length * job.products.length)
      job.stores 0 0).1.map idPair).Nodup := by
  refine ⟨startScraping_success_record st jid job env hjob hl,
    runStores_results_length env job.products _ job.stores 0 0, ?_, ?_⟩
  · exact runStores_idPairs env job.products _ job.stores 0 0
  · rw [runStores_idPairs env job.products _ job.stores 0 0]
    exact nodup_pair_flatMap job.stores job.products hsn hpid

/-- C1 counterexample: two stores that share the name A and a single product
P1 give a final result list whose identity pairs are (A, P1) twice - not
distinct - although the product identifiers are unique within the job. -/
theorem claim_C1_counterexample :
    ((mkJob [mkStore "A", mkStore "A"] [mkProduct "P1" "Milk"]
      JobStatus.uploaded).products.map (fun p => p.productId)).Nodup ∧
    (getJob (startScraping [("j", mkJob [mkStore "A", mkStore "A"]
      [mkProduct "P1" "Milk"] JobStatus.uploaded)] "j" envAllOk).store
      "j").map (fun job => (job.results.getD []).map idPair) =
      some [("A", "P1"), ("A", "P1")] ∧
    ¬ ([("A", "P1"), ("A", "P1")] : List (String × String)).Nodup := by
  exact ⟨by decide, by rfl, by decide⟩

/-- C1 witness: one store, two products, all tasks succeed: 2 results with
distinct identity pairs on the completed record. -/
theorem claim_C1_witness :
    ((mkJob [mkStore "A"] [mkProduct "P1" "Milk", mkProduct "P2" "Bread"]
      JobStatus.uploaded).products.map (fun p => p.productId)).Nodup ∧
    (runStores envAllOk (mkJob [mkStore "A"]
      [mkProduct "P1" "Milk", mkProduct "P2" "Bread"]
      JobStatus.uploaded).products 2 (mkJob [mkStore "A"]
      [mkProduct "P1" "Milk", mkProduct "P2" "Bread"]
      JobStatus.uploaded).stores 0 0).1.length = 2 ∧
    (runStores envAllOk (mkJob [mkStore "A"]
      [mkProduct "P1" "Milk", mkProduct "P2" "Bread"]
      JobStatus.uploaded).products 2 (mkJob [mkStore "A"]
      [mkProduct "P1" "Milk", mkProduct "P2" "Bread"]
      JobStatus.uploaded).stores 0 0).1.map idPair =
      [("A", "P1"), ("A", "P2")] ∧
    ((runStores envAllOk (mkJob [mkStore "A"]
      [mkProduct "P1" "Milk", mkProduct "P2" "Bread"]
      JobStatus.uploaded).products 2 (mkJob [mkStore "A"]
      [mkProduct "P1" "Milk", mkProduct "P2" "Bread"]
      JobStatus.uploaded).stores 0 0).1.map idPair).Nodup := by
  have h := claim_C1 [("j", mkJob [mkStore "A"]
      [mkProduct "P1" "Milk", mkProduct "P2" "Bread"] JobStatus.uploaded)]
    "j" (mkJob [mkStore "A"]
      [mkProduct "P1" "Milk", mkProduct "P2" "Bread"] JobStatus.uploaded)
    envAllOk rfl rfl (by decide) (by decide) (by decide) (by decide)
  exact ⟨by decide, h.2.1, by rfl, h.2.2.2⟩

/-- C4: if every attempt for the pair (s, p) fails, the run still completes:
the job record ends COMPLETED with a full S times P result list, and the
entry for that pair is the synthesized errorResult, which carries
errorMessage = the message of the final attempt's error and, by definition,
isExactMatch = false; all remaining pairs are still processed. -/
theorem claim_C4 (st : JobStore) (jid : String) (job : JobData)
    (env : ScrapeEnv) (s p : ℕ) (store : StoreData) (product : ProductData)
    (msgs : ℕ → String)
    (hjob : getJob st jid = some job)
    (hl : env.launch = Except.ok ())
    (hmr : 1 ≤ env.maxRetries)
    (hstore : job.stores[s]? = some store)
    (hprod : job.products[p]? = some product)
    (hfail : ∀ a : ℕ, 1 ≤ a → (a : ℤ) ≤ env.maxRetries →
      env.nav s p a = Except.error (msgs a)) :
    (startScraping st jid env).result = Except.ok () ∧
    getJob (startScraping st jid env).store jid =
      some { job with
        status := JobStatus.completed
        results := some (runStores env job.products
          (job.stores.length * job.products.length) job.stores 0 0).1 } ∧
    (runStores env job.products (job.stores.length * job.products.length)
      job.stores 0 0).1.length = job.stores.length * job.products.length ∧
    (runStores env job.products (job.stores.length * job.products.length)
      job.stores 0 0).1[s * job.products.length + p]? =
      some (errorResult store product (some (msgs env.maxRetries.toNat))) := by
  refine ⟨?_, startScraping_success_record st jid job env hjob hl,
    runStores_results_length env job.products _ job.stores 0 0, ?_⟩
  · rw [startScraping_success st jid job env hjob hl]
  · have h := runStores_results_getElem env job.products
      (job.stores.length * job.products.length) job.stores 0 0 s p store
      product hstore hprod
    rw [h, Nat.zero_add]
    rw [runTask_allFail env store product s p msgs hmr hfail]

/-- C4 witness: one store, one product, every navigation for the pair (0, 0)
failing: the job completes with a single synthesized failure entry carrying
the error message and isExactMatch = false. -/
theorem claim_C4_witness :
    (startScraping [("j", mkJob [mkStore "A"] [mkProduct "P1" "Milk"]
      JobStatus.uploaded)] "j" envPairFail).result = Except.ok () ∧
    (getJob (startScraping [("j", mkJob [mkStore "A"] [mkProduct "P1" "Milk"]
      JobStatus.uploaded)] "j" envPairFail).store "j").map
      (fun j => (j.status, j.results)) =
      some (JobStatus.completed,
        some [errorResult (mkStore "A") (mkProduct "P1" "Milk")
          (some "net::ERR_TIMED_OUT")]) ∧
    (errorResult (mkStore "A") (mkProduct "P1" "Milk")
      (some "net::ERR_TIMED_OUT")).isExactMatch = false ∧
    (errorResult (mkStore "A") (mkProduct "P1" "Milk")
      (some "net::ERR_TIMED_OUT")).errorMessage = some "net::ERR_TIMED_OUT" := by
  have h := claim_C4 [("j", mkJob [mkStore "A"] [mkProduct "P1" "Milk"]
      JobStatus.uploaded)] "j"
    (mkJob [mkStore "A"] [mkProduct "P1" "Milk"] JobStatus.uploaded)
    envPairFail 0 0 (mkStore "A") (mkProduct "P1" "Milk")
    (fun _ => "net::ERR_TIMED_OUT") rfl rfl (by decide) rfl rfl
    (fun a h1 h2 => rfl)
  exact ⟨h.1, by rfl, rfl, rfl⟩

theorem getLast?_cons_append_singleton {α : Type} (a x : α) (l : List α) :
    (a :: l ++ [x]).getLast? = some x := by
  show ((a :: l) ++ [x]).getLast? = some x
  rw [List.getLast?_append]
  rfl

theorem chain_pctN_map (t : ℕ) :
    ∀ (l : List ℕ) (a : ℕ),
    List.Chain (fun x y => x ≤ y) a l →
    List.Chain (fun x y => x ≤ y) (pctN a t) (l.map (fun x => pctN x t)) := by
  intro l
  induction l with
  | nil => intro a _; exact List.Chain.nil
  | cons b rest ih =>
      intro a h
      rw [List.chain_cons] at h
      rw [List.map_cons, List.chain_cons]
      exact ⟨pctN_mono t h.1, ih b h.2⟩

/-- C5 (amended): the per-task Progress event for the pair (s, p) - the event
at position 1 + s*(P+1) + 1 + p of the run's event stream - carries the
store and product labels and percent = Math.round(100 * completed /
totalTasks) (encoded by roundPct inside taskEvent), where completed =
s*P + p + 1 counts the tasks finished so far, successes and recorded
failures alike.  The original claim said floor instead of Math.round; the
counterexample below separates them (completed 1 of 6: round gives 17,
floor 16). -/
theorem claim_C5 (st : JobStore) (jid : String) (job : JobData)
    (env : ScrapeEnv) (s p : ℕ) (store : StoreData) (product : ProductData)
    (hjob : getJob st jid = some job) (hl : env.launch = Except.ok ())
    (hstore : job.stores[s]? = some store)
    (hprod : job.products[p]? = some product) :
    (startScraping st jid env).events[(s * (job.products.length + 1) + 1 + p)
      + 1]? =
      some (taskEvent store product
        (job.stores.length * job.products.length)
        (s * job.products.length + p + 1)) := by
  rw [startScraping_success st jid job env hjob hl]
  have hsl := getElem?_some_lt hstore
  have hlen : s * (job.products.length + 1) + 1 + p <
      (runStores env job.products
        (job.stores.length * job.products.length) job.stores 0 0).2.1.length := by
    rw [runStores_events_length]
    have h1 : s + 1 ≤ job.stores.length := hsl
    have h2 : (s + 1) * (job.products.length + 1) ≤
        job.stores.length * (job.products.length + 1) :=
      Nat.mul_le_mul_right _ h1
    have h3 : (s + 1) * (job.products.length + 1) =
        s * (job.products.length + 1) + job.products.length + 1 := by ring
    have hpl := getElem?_some_lt hprod
    omega
  show (initEvent :: (runStores env job.products
      (job.stores.length * job.products.length) job.stores 0 0).2.1 ++
    [completedEvent (runStores env job.products
      (job.stores.length * job.products.length) job.stores 0 0).1
      job.stores.length])[s * (job.products.length + 1) + 1 + p + 1]? =
    some (taskEvent store product (job.stores.length * job.products.length)
      (s * job.products.length + p + 1))
  refine Eq.trans (@List.getElem?_cons_succ ProgressEvent initEvent
    (s * (job.products.length + 1) + 1 + p)
    ((runStores env job.products
      (job.stores.length * job.products.length) job.stores 0 0).2.1 ++
      [completedEvent (runStores env job.products
        (job.stores.length * job.products.length) job.stores 0 0).1
        job.stores.length])) ?_
  refine Eq.trans (@List.getElem?_append ProgressEvent
    ((runStores env job.products
      (job.stores.length * job.products.length) job.stores 0 0).2.1)
    [completedEvent (runStores env job.products
      (job.stores.length * job.products.length) job.stores 0 0).1
      job.stores.length]
    (s * (job.products.length + 1) + 1 + p)) ?_
  rw [if_pos hlen]
  have h := runStores_events_getElem env job.products
    (job.stores.length * job.products.length) job.stores 0 0 s p store
    product hstore hprod
  rw [Nat.zero_add] at h
  exact h

/-- C5 counterexample: with 1 store and 6 products and every task
succeeding, the event published after the first task carries percent 17 =
Math.round(100/6), but floor(100 * 1 / 6) = 16, so percent is not the floor
the claim states. -/
theorem claim_C5_counterexample :
    ((startScraping [("j", mkJob [mkStore "A"]
      [mkProduct "P1" "a", mkProduct "P2" "b", mkProduct "P3" "c",
       mkProduct "P4" "d", mkProduct "P5" "e", mkProduct "P6" "f"]
      JobStatus.uploaded)] "j" envAllOk).events[2]?).map
      (fun ev => ev.progress) = some (some 17) ∧
    100 * 1 / 6 = 16 ∧ (17 : ℕ) ≠ 100 * 1 / 6 := by
  exact ⟨rfl, rfl, by decide⟩

/-- C5 witness: 1 store, 2 products: the event after the first task sits at
position 2 and carries percent Math.round(100 * 1 / 2) = 50. -/
theorem claim_C5_witness :
    (startScraping [("j", mkJob [mkStore "A"]
      [mkProduct "P1" "Milk", mkProduct "P2" "Bread"] JobStatus.uploaded)]
      "j" envAllOk).events[2]? =
      some (taskEvent (mkStore "A") (mkProduct "P1" "Milk") 2 1) ∧
    (taskEvent (mkStore "A") (mkProduct "P1" "Milk") 2 1).progress =
      some 50 := by
  have h := claim_C5 [("j", mkJob [mkStore "A"]
      [mkProduct "P1" "Milk", mkProduct "P2" "Bread"] JobStatus.uploaded)]
    "j" (mkJob [mkStore "A"]
      [mkProduct "P1" "Milk", mkProduct "P2" "Bread"] JobStatus.uploaded)
    envAllOk 0 0 (mkStore "A") (mkProduct "P1" "Milk") rfl rfl rfl rfl
  exact ⟨h, rfl⟩

/-- C7 (amended): a job whose task matrix is empty completes (when
initialization succeeds) with an empty Result list attached and status
COMPLETED; with zero stores the only events are the initial one and the
terminal one at 100 percent, so no NaN percent is published; but with at
least one store and zero products the per-store event computes
Math.round((0/0)*100) and publishes percent NaN (none), refuting the
original claim that no NaN percent is ever published. -/
theorem claim_C7 (st : JobStore) (jid : String) (job : JobData)
    (env : ScrapeEnv)
    (hjob : getJob st jid = some job) (hl : env.launch = Except.ok ())
    (hz : job.stores.length * job.products.length = 0) :
    (startScraping st jid env).result = Except.ok () ∧
    getJob (startScraping st jid env).store jid =
      some { job with
        status := JobStatus.completed
        results := some [] } ∧
    (job.stores = [] →
      (startScraping st jid env).events = [initEvent, completedEvent [] 0]) ∧
    (job.stores ≠ [] →
      ((startScraping st jid env).events[1]?).map (fun ev => ev.progress) =
        some none) := by
  have hnil : (runStores env job.products
      (job.stores.length * job.products.length) job.stores 0 0).1 = [] := by
    have hlen := runStores_results_length env job.products
      (job.stores.length * job.products.length) job.stores 0 0
    exact List.length_eq_zero.mp (hlen.trans hz)
  refine ⟨?_, ?_, ?_, ?_⟩
  · rw [startScraping_success st jid job env hjob hl]
  · have hrec := startScraping_success_record st jid job env hjob hl
    rw [hnil] at hrec
    exact hrec
  · intro hs0
    rw [startScraping_success st jid job env hjob hl]
    dsimp only
    rw [hnil, hs0]
    simp [runStores]
  · intro hne
    obtain ⟨q, rest, hq⟩ := List.exists_cons_of_ne_nil hne
    have hplen : job.products.length = 0 := by
      rw [hq] at hz
      simp only [List.length_cons] at hz
      rcases Nat.mul_eq_zero.mp hz with h | h
      · omega
      · exact h
    have hpnil : job.products = [] := List.length_eq_zero.mp hplen
    rw [startScraping_success st jid job env hjob hl]
    dsimp only
    rw [hq, hpnil]
    simp [runStores, runProducts, storeEvent, roundPct]

/-- C6 (amended): within one run's event stream, the defined (non-NaN)
percent values are non-decreasing; the terminal event of a run that ends in
COMPLETED carries percent exactly 100, but the terminal event of a run that
ends in FAILED carries percent 0, not the 100 the original claim states (the
counterexample below).  Non-decrease still holds on a FAILED run because a
fatal error can only occur at initialization, while percent is still 0. -/
theorem claim_C6 (st : JobStore) (jid : String) (job : JobData)
    (env : ScrapeEnv) (hjob : getJob st jid = some job) :
    List.Chain' (fun a b => a ≤ b)
      (percentsOf (startScraping st jid env).events) ∧
    ((startScraping st jid env).result = Except.ok () →
      ((startScraping st jid env).events.getLast?).map (fun ev => ev.progress) =
        some (some 100)) ∧
    (∀ e, (startScraping st jid env).result = Except.error e →
      ((startScraping st jid env).events.getLast?).map (fun ev => ev.progress) =
        some (some 0)) := by
  cases hl : env.launch with
  | error e =>
      rw [startScraping_fail st jid job env e hjob hl]
      refine ⟨?_, ?_, ?_⟩
      · have hev : percentsOf [initEvent, failedEvent e] = [0, 0] := rfl
        show List.Chain' (fun a b => a ≤ b)
          (percentsOf [initEvent, failedEvent e])
        rw [hev]
        exact List.chain'_pair.mpr (by omega)
      · intro h
        exact absurd h (by simp)
      · intro e2 _
        rfl
  | ok u =>
      cases u
      rw [startScraping_success st jid job env hjob hl]
      refine ⟨?_, ?_, ?_⟩
      · show List.Chain' (fun a b => a ≤ b)
          (percentsOf (initEvent :: (runStores env job.products
            (job.stores.length * job.products.length) job.stores 0 0).2.1 ++
            [completedEvent (runStores env job.products
              (job.stores.length * job.products.length) job.stores 0 0).1
              job.stores.length]))
        have hev : percentsOf (initEvent :: (runStores env job.products
            (job.stores.length * job.products.length) job.stores 0 0).2.1 ++
            [completedEvent (runStores env job.products
              (job.stores.length * job.products.length) job.stores 0 0).1
              job.stores.length]) =
            0 :: percentsOf ((runStores env job.products
              (job.stores.length * job.products.length) job.stores 0 0).2.1) ++
              [100] := by
          simp [percentsOf, List.filterMap_cons, List.filterMap_append,
            initEvent, completedEvent]
        rw [hev]
        by_cases ht : job.stores.length * job.products.length = 0
        · rw [ht, runStores_percents_zero env job.products job.stores 0 0]
          show List.Chain' (fun a b => a ≤ b) [0, 100]
          exact List.chain'_pair.mpr (by omega)
        · rw [runStores_percents env job.products
            (job.stores.length * job.products.length) ht job.stores 0 0]
          have hchain := runCounts_chain job.products.length
            job.stores.length 0
          have hmap := chain_pctN_map
            (job.stores.length * job.products.length) _ _ hchain
          rw [List.map_append] at hmap
          simp only [List.map_cons, List.map_nil] at hmap
          rw [pctN_zero _ ht] at hmap
          rw [Nat.zero_add, pctN_total _ ht] at hmap
          exact hmap
      · intro _
        rw [getLast?_cons_append_singleton]
        rfl
      · intro e2 h2
        exact absurd h2 (by simp)
  
/-- C6 counterexample: a run that fails at initialization ends FAILED and its
terminal event carries percent 0, not 100. -/
theorem claim_C6_counterexample :
    (startScraping [("j", mkJob [mkStore "A"] [mkProduct "P1" "Milk"]
      JobStatus.uploaded)] "j" envLaunchFail).result =
      Except.error "browser launch failed" ∧
    ((startScraping [("j", mkJob [mkStore "A"] [mkProduct "P1" "Milk"]
      JobStatus.uploaded)] "j" envLaunchFail).events.getLast?).map
      (fun ev => ev.progress) = some (some 0) ∧
    some (0 : ℕ) ≠ some 100 := by
  exact ⟨rfl, rfl, by decide⟩

/-- C6 witness: a successful 1-store 2-product run has non-decreasing defined
percents and a terminal event at percent 100. -/
theorem claim_C6_witness :
    List.Chain' (fun a b => a ≤ b)
      (percentsOf (startScraping [("j", mkJob [mkStore "A"]
        [mkProduct "P1" "Milk", mkProduct "P2" "Bread"] JobStatus.uploaded)]
        "j" envAllOk).events) ∧
    ((startScraping [("j", mkJob [mkStore "A"]
        [mkProduct "P1" "Milk", mkProduct "P2" "Bread"] JobStatus.uploaded)]
        "j" envAllOk).events.getLast?).map (fun ev => ev.progress) =
      some (some 100) := by
  have h := claim_C6 [("j", mkJob [mkStore "A"]
      [mkProduct "P1" "Milk", mkProduct "P2" "Bread"] JobStatus.uploaded)]
    "j" (mkJob [mkStore "A"]
      [mkProduct "P1" "Milk", mkProduct "P2" "Bread"] JobStatus.uploaded)
    envAllOk rfl
  exact ⟨h.1, h.2.1 rfl⟩

/-- C7 counterexample: one store and zero products: the job does complete with
an empty Result list, but the store-start event at position 1 carries percent
NaN (none) - a 0/0 percent IS published, refuting the no-NaN part of the
claim. -/
theorem claim_C7_counterexample :
    ((startScraping [("j", mkJob [mkStore "A"] [] JobStatus.uploaded)] "j"
      envAllOk).events[1]?).map (fun ev => ev.progress) = some none ∧
    (getJob (startScraping [("j", mkJob [mkStore "A"] [] JobStatus.uploaded)]
      "j" envAllOk).store "j").map (fun j => (j.status, j.results)) =
      some (JobStatus.completed, some []) :=
  ⟨rfl, rfl⟩

/-- C7 witness: the amended behavior at one store and zero products: run ok,
record COMPLETED with empty results, NaN percent on the store event. -/
theorem claim_C7_witness :
    (startScraping [("j", mkJob [mkStore "A"] [] JobStatus.uploaded)] "j"
      envAllOk).result = Except.ok () ∧
    getJob (startScraping [("j", mkJob [mkStore "A"] [] JobStatus.uploaded)]
      "j" envAllOk).store "j" =
      some { (mkJob [mkStore "A"] [] JobStatus.uploaded) with
        status := JobStatus.completed
        results := some [] } ∧
    ((startScraping [("j", mkJob [mkStore "A"] [] JobStatus.uploaded)] "j"
      envAllOk).events[1]?).map (fun ev => ev.progress) = some none := by
  have h := claim_C7 [("j", mkJob [mkStore "A"] [] JobStatus.uploaded)] "j"
    (mkJob [mkStore "A"] [] JobStatus.uploaded) envAllOk rfl rfl rfl
  exact ⟨h.1, h.2.1, h.2.2.2 (List.cons_ne_nil _ _)⟩
